import Mathlib

/-!
# Verification of the pattern-detection engine (ml-service)

Shallow embedding of `src/ml-service/pattern_detection.py` and of the
aggregation step `detect_patterns` in `src/ml-service/main.py`.

Modelling conventions:
- Machine floats are modelled as exact rationals (`ℚ`).
- Timestamps are modelled as UTC epoch seconds (`ℤ`); `datetime.weekday()`
  and `datetime.hour` are derived arithmetically (1970-01-01 was a Thursday,
  Python weekday Monday = 0).
- `statistics.stdev` takes a square root, which is not rational; the square
  root is abstracted as an explicit function argument `sqrtFn : ℚ → ℚ`,
  with the properties a given claim needs (e.g. `sqrtFn 0 = 0`) taken as
  hypotheses.
- `datetime.now(...)` is modelled as an explicit argument `now : ℤ` to the
  functions that call it.
- An `Interaction` dict is modelled by its four fields used by the engine.
  `Option.none` stands for a missing *or Python-falsy* field value
  (`interaction.get(...)` followed by a truthiness test); for `sentiment`
  the stored string is the label the code would extract (from a bare string
  or from a `{'label': ...}` record, defaulting to `"neutral"`).
- Python dict / `collections.Counter` iteration order is insertion order;
  groupings are modelled with keys listed in first-occurrence order.
-/

set_option maxRecDepth 8000

namespace CustomerInsights

/-- A timestamp, as UTC epoch seconds. -/
abbrev Timestamp := Int

/-- Python `datetime.weekday()` for an epoch-seconds instant (UTC):
Monday = 0 … Sunday = 6; 1970-01-01 (day 0) was a Thursday (= 3). -/
def weekdayOf (t : Timestamp) : ℤ := (t.fdiv 86400 + 3).emod 7

/-- Python `datetime.hour` for an epoch-seconds instant (UTC). -/
def hourOf (t : Timestamp) : ℤ := (t.emod 86400).fdiv 3600

/-- One customer interaction record, restricted to the fields the
pattern-detection engine reads.  `none` models a missing or falsy field. -/
structure Interaction where
  channel : Option String
  timestamp : Option Timestamp
  sentiment : Option String
  content : Option String
  deriving Repr, DecidableEq

/-- `statistics.mean` (junk value `0` on `[]`; the code always guards). -/
def mean (l : List ℚ) : ℚ := l.sum / l.length

/-- The sample variance underlying `statistics.stdev`
(junk on lists shorter than 2; the code always guards). -/
def sampleVariance (l : List ℚ) : ℚ :=
  (l.map (fun x => (x - mean l) ^ 2)).sum / ((l.length : ℚ) - 1)

/-- The distinct elements of a list, in order of first occurrence —
the key order of a Python dict / `Counter` built by insertion. -/
def distinctInOrder {α : Type} [DecidableEq α] : List α → List α
  | [] => []
  | x :: xs => x :: (distinctInOrder xs).filter (fun y => y ≠ x)

/-- `Counter(xs).most_common(1)[0][0]`: the first-inserted element realising
the maximal multiplicity (`Counter.most_common` sorts stably by count).
Junk value `junk` on `[]`; the code always guards. -/
def mostCommon {α : Type} [DecidableEq α] (junk : α) (xs : List α) : α :=
  match distinctInOrder xs with
  | [] => junk
  | d :: ds => ds.foldl (fun best y => if xs.count best < xs.count y then y else best) d

/-! ## `calculate_channel_frequency` (pattern_detection.py lines 17–103) -/

/-- Per-channel output record of `calculate_channel_frequency`. -/
structure ChannelStats where
  count : ℕ
  regularity : ℚ
  avg_interval : ℚ
  deriving Repr, DecidableEq

/-- The channel key an interaction contributes to the grouping:
present and truthy `channel` and `timestamp`
(`if channel and timestamp:` in the source). -/
def truthyChannelOf (i : Interaction) : Option String :=
  match i.channel, i.timestamp with
  | some c, some _ => if c = "" then none else some c
  | _, _ => none

/-- The timestamps grouped under channel `ch`, in input order. -/
def timestampsFor (interactions : List Interaction) (ch : String) : List Timestamp :=
  interactions.filterMap (fun i =>
    match i.timestamp with
    | some t => if truthyChannelOf i = some ch then some t else none
    | none => none)

/-- The `defaultdict(list)` grouping of line 46–51: keys in first-occurrence
order, each key's timestamps in input order. -/
def groupByChannel (interactions : List Interaction) : List (String × List Timestamp) :=
  (distinctInOrder (interactions.filterMap truthyChannelOf)).map
    (fun ch => (ch, timestampsFor interactions ch))

/-- Consecutive gaps in hours between sorted timestamps
(`(t2 - t1).total_seconds() / 3600`). -/
def hourIntervals (sorted : List Timestamp) : List ℚ :=
  List.zipWith (fun t1 t2 => ((t2 - t1 : ℤ) : ℚ) / 3600) sorted sorted.tail

/-- The per-channel body of the loop at lines 55–101: count, regularity from
the coefficient of variation of the sorted gaps, average gap in hours. -/
def channelEntry (sqrtFn : ℚ → ℚ) (timestamps : List Timestamp) : ChannelStats :=
  let count := timestamps.length
  let sorted := List.insertionSort (· ≤ ·) timestamps
  let intervals := hourIntervals sorted
  if 1 < intervals.length then
    let avg := mean intervals
    if 0 < avg then
      let sd := sqrtFn (sampleVariance intervals)
      let cv := sd / avg
      ⟨count, max 0 (min 1 (1 / (1 + cv))), avg⟩
    else ⟨count, 0, 0⟩
  else ⟨count, 0, 0⟩

/-- `calculate_channel_frequency`: result dict as an insertion-ordered
association list; channels with fewer than 10 grouped uses are skipped. -/
def calculate_channel_frequency (sqrtFn : ℚ → ℚ) (interactions : List Interaction) :
    List (String × ChannelStats) :=
  ((groupByChannel interactions).filter (fun g => 10 ≤ g.2.length)).map
    (fun g => (g.1, channelEntry sqrtFn g.2))

/-! ## `analyze_sentiment_trend` (pattern_detection.py lines 106–202) -/

/-- Output record of `analyze_sentiment_trend`. -/
structure SentimentTrend where
  dominant : String
  consistency : ℚ
  average : ℚ
  direction : String
  deriving Repr, DecidableEq

/-- The sentiment labels present in the batch, in input order
(lines 144–153; `none` models a missing or falsy sentiment field). -/
def sentimentLabels (interactions : List Interaction) : List String :=
  interactions.filterMap (·.sentiment)

/-- Numeric polarity of a label (lines 156–161): labels other than
`positive` / `negative` score 0. -/
def polarity (label : String) : ℚ :=
  if label = "positive" then 1 else if label = "negative" then -1 else 0

/-- `analyze_sentiment_trend`.  The early return on an empty batch (lines
132–138) produces the same record as the no-scorable-labels return
(lines 163–169), so both are covered by the `labels = []` branch. -/
def analyze_sentiment_trend (interactions : List Interaction) : SentimentTrend :=
  let labels := sentimentLabels interactions
  let scores := labels.map polarity
  if labels = [] then ⟨"neutral", 0, 0, "stable"⟩
  else
    let dominant := mostCommon "" labels
    let consistency := (labels.count dominant : ℚ) / labels.length
    let average := mean scores
    let direction :=
      if 4 ≤ scores.length then
        let mid := scores.length / 2
        let diff := mean (scores.drop mid) - mean (scores.take mid)
        if 1/5 < diff then "improving"
        else if diff < -(1/5) then "declining"
        else "stable"
      else "stable"
    ⟨dominant, consistency, average, direction⟩

/-! ## `detect_temporal_pattern` (pattern_detection.py lines 205–284) -/

/-- A metadata value (Python dict values are strings, ints or floats here). -/
inductive MVal where
  | s (v : String)
  | z (v : ℤ)
  | q (v : ℚ)
  deriving Repr, DecidableEq

/-- Output record of `detect_temporal_pattern` (when not `None`). -/
structure TemporalPattern where
  pattern_type : String
  confidence : ℚ
  description : String
  metadata : List (String × MVal)
  occurrences : ℕ
  deriving Repr, DecidableEq

/-- Day names indexed by Python weekday (line 260). -/
def dayNames : List String :=
  ["Monday", "Tuesday", "Wednesday", "Thursday", "Friday", "Saturday", "Sunday"]

/-- 4-hour block labels indexed by `hour // 4` (line 272). -/
def blockRanges : List String :=
  ["12am-4am", "4am-8am", "8am-12pm", "12pm-4pm", "4pm-8pm", "8pm-12am"]

/-- The parsable timestamps of the batch, in input order (lines 235–242). -/
def batchTimestamps (interactions : List Interaction) : List Timestamp :=
  interactions.filterMap (·.timestamp)

/-- Day-of-week confidence: share of the most common weekday (lines 248–250). -/
def dayConfidence (interactions : List Interaction) : ℚ :=
  let ts := batchTimestamps interactions
  let days := ts.map weekdayOf
  (days.count (mostCommon 0 days) : ℚ) / ts.length

/-- Time-of-day confidence: share of the most common 4-hour block
(lines 253–256). -/
def timeConfidence (interactions : List Interaction) : ℚ :=
  let ts := batchTimestamps interactions
  let blocks := ts.map (fun t => (hourOf t).fdiv 4)
  (blocks.count (mostCommon 0 blocks) : ℚ) / ts.length

/-- `detect_temporal_pattern`. -/
def detect_temporal_pattern (interactions : List Interaction) : Option TemporalPattern :=
  if interactions.length < 5 then none
  else
    let timestamps := batchTimestamps interactions
    if timestamps.length < 5 then none
    else
      let days := timestamps.map weekdayOf
      let mostDay := mostCommon 0 days
      let dayCount := days.count mostDay
      let dayConf := (dayCount : ℚ) / timestamps.length
      let blocks := timestamps.map (fun t => (hourOf t).fdiv 4)
      let mostBlock := mostCommon 0 blocks
      let blockCount := blocks.count mostBlock
      let timeConf := (blockCount : ℚ) / timestamps.length
      if 7/10 < dayConf ∧ timeConf ≤ dayConf then
        some { pattern_type := "day_of_week"
               confidence := dayConf
               description :=
                 "Customer frequently interacts on " ++ dayNames.getD mostDay.toNat ""
               metadata := [("day_of_week", .z mostDay),
                            ("day_name", .s (dayNames.getD mostDay.toNat ""))]
               occurrences := dayCount }
      else if 7/10 < timeConf then
        some { pattern_type := "time_of_day"
               confidence := timeConf
               description :=
                 "Customer frequently interacts during " ++ blockRanges.getD mostBlock.toNat ""
               metadata := [("hour_block", .z mostBlock),
                            ("time_range", .s (blockRanges.getD mostBlock.toNat ""))]
               occurrences := blockCount }
      else none

/-! ## `calculate_engagement_score` (pattern_detection.py lines 287–399) -/

/-- Output record of `calculate_engagement_score`. -/
structure Engagement where
  score : ℚ
  level : String
  interaction_count : ℕ
  trend : String
  deriving Repr, DecidableEq

/-- Factor 1 (line 326): `min(1.0, interaction_count / 50.0)`. -/
def frequencyScore (interactions : List Interaction) : ℚ :=
  min 1 ((interactions.length : ℚ) / 50)

/-- Factor 2 (lines 328–343).  `now` is the epoch instant of
`datetime.now(...)`; `(now - last).days` floors, as `timedelta.days` does. -/
def recencyScore (now : ℤ) (interactions : List Interaction) : ℚ :=
  match (batchTimestamps interactions).max? with
  | none => 0
  | some last => max 0 (1 - (((now - last).fdiv 86400 : ℤ) : ℚ) / 30)

/-- The truthy channels of the batch, distinct, in first-occurrence order
(the `set(...)` of line 346; only its cardinality is used). -/
def distinctChannels (interactions : List Interaction) : List String :=
  distinctInOrder (interactions.filterMap (fun i =>
    match i.channel with
    | some c => if c = "" then none else some c
    | none => none))

/-- Factor 3 (lines 345–347): `min(1.0, len(channels) / 3.0)`. -/
def diversityScore (interactions : List Interaction) : ℚ :=
  min 1 ((distinctChannels interactions).length / 3)

/-- The lengths of the truthy string contents, in input order
(lines 350–354). -/
def contentLengths (interactions : List Interaction) : List ℚ :=
  interactions.filterMap (fun i =>
    match i.content with
    | some c => if c = "" then none else some (c.length : ℚ)
    | none => none)

/-- Factor 4 (lines 349–360): average content length over 200, capped at 1;
neutral 0.5 when no interaction carries textual content. -/
def richnessScore (interactions : List Interaction) : ℚ :=
  if contentLengths interactions = [] then 1/2
  else min 1 (mean (contentLengths interactions) / 200)

/-- `calculate_engagement_score`. -/
def calculate_engagement_score (now : ℤ) (interactions : List Interaction) : Engagement :=
  if interactions = [] then ⟨0, "low", 0, "stable"⟩
  else
    let score := frequencyScore interactions * (35/100)
               + recencyScore now interactions * (30/100)
               + diversityScore interactions * (20/100)
               + richnessScore interactions * (15/100)
    let level := if 7/10 ≤ score then "high"
                 else if 4/10 ≤ score then "medium"
                 else "low"
    let trend :=
      if 4 ≤ interactions.length then
        let mid := interactions.length / 2
        let firstHalf := (mid : ℚ)
        let secondHalf := ((interactions.length - mid : ℕ) : ℚ)
        if firstHalf * (12/10) < secondHalf then "increasing"
        else if secondHalf < firstHalf * (8/10) then "decreasing"
        else "stable"
      else "stable"
    ⟨score, level, interactions.length, trend⟩

/-! ## The aggregator `detect_patterns` (main.py lines 334–433) -/

/-- The `Pattern` response model (main.py lines 321–326). -/
structure Pattern where
  pattern_type : String
  confidence : ℚ
  frequency : ℕ
  description : String
  metadata : List (String × MVal)
  deriving Repr, DecidableEq

instance : Inhabited Pattern := ⟨⟨"", 0, 0, "", []⟩⟩

/-- Channel-frequency patterns (main.py lines 367–380), in dict order. -/
def channelPatterns (sqrtFn : ℚ → ℚ) (interactions : List Interaction) : List Pattern :=
  (calculate_channel_frequency sqrtFn interactions).filterMap (fun g =>
    if 10 ≤ g.2.count ∧ 7/10 < g.2.regularity then
      some { pattern_type := "frequent_" ++ g.1 ++ "_user"
             confidence := g.2.regularity
             frequency := g.2.count
             description := "Customer frequently uses " ++ g.1 ++ " channel"
             metadata := [("channel", .s g.1),
                          ("avg_interval_hours", .q g.2.avg_interval)] }
    else none)

/-- Sentiment pattern (main.py lines 382–394). -/
def sentimentPatterns (interactions : List Interaction) : List Pattern :=
  let st := analyze_sentiment_trend interactions
  if 7/10 < st.consistency then
    [{ pattern_type := st.dominant ++ "_sentiment_trend"
       confidence := st.consistency
       frequency := interactions.length
       description := "Customer shows consistent " ++ st.dominant ++ " sentiment"
       metadata := [("trend", .s st.direction), ("average", .q st.average)] }]
  else []

/-- Temporal pattern (main.py lines 396–405). -/
def temporalPatterns (interactions : List Interaction) : List Pattern :=
  match detect_temporal_pattern interactions with
  | some tp =>
      if 7/10 < tp.confidence then
        [{ pattern_type := "temporal_pattern"
           confidence := tp.confidence
           frequency := tp.occurrences
           description := tp.description
           metadata := tp.metadata }]
      else []
  | none => []

/-- Engagement pattern (main.py lines 407–419). -/
def engagementPatterns (now : ℤ) (interactions : List Interaction) : List Pattern :=
  let e := calculate_engagement_score now interactions
  if 7/10 < e.score then
    [{ pattern_type := e.level ++ "_engagement"
       confidence := e.score
       frequency := e.interaction_count
       description := "Customer shows " ++ e.level ++ " engagement level"
       metadata := [("score", .q e.score), ("trend", .s e.trend)] }]
  else []

/-- The `patterns` list in detector-emission order (main.py lines 365–419). -/
def emittedPatterns (sqrtFn : ℚ → ℚ) (now : ℤ) (interactions : List Interaction) : List Pattern :=
  channelPatterns sqrtFn interactions ++ sentimentPatterns interactions
    ++ temporalPatterns interactions ++ engagementPatterns now interactions

/-- The comparison under `sort(key=confidence, reverse=True)`: a stable
descending sort places `p` before `q` when `q.confidence ≤ p.confidence`. -/
def confGE (p q : Pattern) : Prop := q.confidence ≤ p.confidence

instance : DecidableRel confGE :=
  fun p q => inferInstanceAs (Decidable (q.confidence ≤ p.confidence))

/-- `detect_patterns` (main.py lines 354–433): short-circuit below 5
interactions, run the four detectors, filter to confidence ≥ 0.7, stable
descending sort by confidence (Python `list.sort` is stable; insertion sort
with `confGE` realises the same stable descending order). -/
def detect_patterns (sqrtFn : ℚ → ℚ) (now : ℤ) (interactions : List Interaction) :
    List Pattern :=
  if interactions.length < 5 then []
  else
    List.insertionSort confGE
      ((emittedPatterns sqrtFn now interactions).filter (fun p => 7/10 ≤ p.confidence))

/-! ## Helper lemmas -/

theorem mem_distinctInOrder {α : Type} [DecidableEq α] {xs : List α} {y : α} :
    y ∈ distinctInOrder xs ↔ y ∈ xs := by
  induction xs with
  | nil => simp [distinctInOrder]
  | cons x xs ih =>
    simp only [distinctInOrder, List.mem_cons, List.mem_filter, ih]
    constructor
    · rintro (rfl | ⟨h, _⟩)
      · exact Or.inl rfl
      · exact Or.inr h
    · rintro (rfl | h)
      · exact Or.inl rfl
      · by_cases hy : y = x
        · exact Or.inl hy
        · exact Or.inr ⟨h, by simpa using hy⟩

theorem distinctInOrder_eq_nil {α : Type} [DecidableEq α] {xs : List α} :
    distinctInOrder xs = [] ↔ xs = [] := by
  cases xs with
  | nil => simp [distinctInOrder]
  | cons x xs => simp [distinctInOrder]

theorem foldl_choice_mem {α : Type} (P : α → α → Prop) [DecidableRel P] (ds : List α) (d : α) :
    ds.foldl (fun best y => if P best y then y else best) d ∈ d :: ds := by
  induction ds generalizing d with
  | nil => simp
  | cons y ys ih =>
    simp only [List.foldl_cons]
    rcases List.mem_cons.mp (ih (if P d y then y else d)) with h | h
    · rw [h]
      by_cases hP : P d y
      · simp [hP]
      · simp [hP]
    · exact List.mem_cons.mpr (Or.inr (List.mem_cons.mpr (Or.inr h)))

theorem mostCommon_mem {α : Type} [DecidableEq α] (junk : α) {xs : List α}
    (h : xs ≠ []) : mostCommon junk xs ∈ xs := by
  rcases hd : distinctInOrder xs with _ | ⟨d, ds⟩
  · exact absurd (distinctInOrder_eq_nil.mp hd) h
  · have heq : mostCommon junk xs =
        ds.foldl (fun best y => if xs.count best < xs.count y then y else best) d := by
      unfold mostCommon
      rw [hd]
    rw [heq]
    have hm := foldl_choice_mem (fun best y => xs.count best < xs.count y) ds d
    refine mem_distinctInOrder.mp ?_
    rw [hd]
    exact hm

theorem mean_nonneg {l : List ℚ} (h : ∀ x ∈ l, 0 ≤ x) : 0 ≤ mean l := by
  unfold mean
  exact div_nonneg (List.sum_nonneg h) (by positivity)

theorem channelEntry_count (sqrtFn : ℚ → ℚ) (ts : List Timestamp) :
    (channelEntry sqrtFn ts).count = ts.length := by
  simp only [channelEntry]
  split_ifs <;> rfl

/-- The number of interactions carrying both a channel equal to `ch` and a
timestamp. -/
def carryingCount (interactions : List Interaction) (ch : String) : ℕ :=
  (interactions.filter (fun i => i.channel = some ch && i.timestamp.isSome)).length

theorem truthyChannelOf_channel {i : Interaction} {ch : String}
    (h : truthyChannelOf i = some ch) : i.channel = some ch ∧ i.timestamp.isSome := by
  unfold truthyChannelOf at h
  rcases hc : i.channel with _ | c <;> rcases ht : i.timestamp with _ | t <;>
    rw [hc, ht] at h <;> simp_all

theorem length_filterMap_le_length_filter {α β : Type} (f : α → Option β) (p : α → Bool)
    (h : ∀ a, (f a).isSome → p a) (l : List α) :
    (l.filterMap f).length ≤ (l.filter p).length := by
  induction l with
  | nil => simp
  | cons a l ih =>
    rw [List.filterMap_cons, List.filter_cons]
    rcases hf : f a with _ | b
    · split_ifs <;> simp <;> omega
    · have hp : p a = true := h a (by rw [hf]; rfl)
      rw [if_pos hp]
      simp only [List.length_cons]
      omega

theorem timestampsFor_length_le (b : List Interaction) (ch : String) :
    (timestampsFor b ch).length ≤ carryingCount b ch := by
  unfold timestampsFor carryingCount
  apply length_filterMap_le_length_filter
  intro i hi
  rcases ht : i.timestamp with _ | t
  · rw [ht] at hi
    simp at hi
  · rw [ht] at hi
    by_cases hc : truthyChannelOf i = some ch
    · have hch := (truthyChannelOf_channel hc).1
      simp [hch]
    · simp [hc] at hi

theorem mem_groupByChannel {b : List Interaction} {g : String × List Timestamp}
    (h : g ∈ groupByChannel b) : g.2 = timestampsFor b g.1 := by
  unfold groupByChannel at h
  obtain ⟨ch, _, hg⟩ := List.mem_map.mp h
  rw [← hg]

/-- C7: every channel appearing in the result of `calculate_channel_frequency`
has `count ≥ 10`, and a channel with fewer than 10 interactions carrying both
channel and timestamp does not appear in the result at all. -/
theorem channel_frequency_count_floor (sqrtFn : ℚ → ℚ) (b : List Interaction) :
    (∀ e ∈ calculate_channel_frequency sqrtFn b, 10 ≤ e.2.count) ∧
    (∀ ch : String, carryingCount b ch < 10 →
      ∀ e ∈ calculate_channel_frequency sqrtFn b, e.1 ≠ ch) := by
  constructor
  · intro e he
    obtain ⟨g, hg, hge⟩ := List.mem_map.mp he
    have h10 : 10 ≤ g.2.length := by
      have := (List.mem_filter.mp hg).2
      simpa using this
    rw [← hge]
    simpa [channelEntry_count] using h10
  · intro ch hlt e he h1
    obtain ⟨g, hg, hge⟩ := List.mem_map.mp he
    obtain ⟨hgmem, hdec⟩ := List.mem_filter.mp hg
    have h10 : 10 ≤ g.2.length := by simpa using hdec
    have hts : g.2 = timestampsFor b g.1 := mem_groupByChannel hgmem
    have hkey : g.1 = ch := by
      rw [← hge] at h1
      exact h1
    rw [hts, hkey] at h10
    have := timestampsFor_length_le b ch
    omega

/-! ## C6: 15 `web` interactions at exact 48-hour spacing -/

/-- A batch of 15 interactions on channel `web` whose timestamps start at an
arbitrary instant `t0` and are spaced at exactly 48 hours (172800 s). -/
def webBatch (t0 : ℤ) : List Interaction :=
  (List.range 15).map
    (fun (i : ℕ) => ⟨some "web", some (t0 + 172800 * (i : ℤ)), none, none⟩)

/-- The timestamps of `webBatch t0`. -/
def webTs (t0 : ℤ) : List Timestamp :=
  (List.range 15).map (fun (i : ℕ) => t0 + 172800 * (i : ℤ))

theorem sorted_webTs (t0 : ℤ) : List.Sorted (· ≤ ·) (webTs t0) := by
  unfold webTs
  refine List.Pairwise.map _ ?_ (List.pairwise_lt_range 15)
  intro a b hab
  have h1 : (a : ℤ) < b := by exact_mod_cast hab
  linarith

theorem channelEntry_webTs (f : ℚ → ℚ) (hs : f 0 = 0) (t0 : ℤ) :
    channelEntry f (webTs t0) = ⟨15, 1, 48⟩ := by
  have hint : hourIntervals (webTs t0) =
      [48, 48, 48, 48, 48, 48, 48, 48, 48, 48, 48, 48, 48, 48] := by
    have hr : List.range 15 = [0,1,2,3,4,5,6,7,8,9,10,11,12,13,14] := by decide
    simp only [webTs, hr, List.map_cons, List.map_nil, hourIntervals, List.tail_cons,
      List.zipWith_cons_cons, List.zipWith_nil_right]
    norm_num
  have hlen : (webTs t0).length = 15 := by simp [webTs]
  simp only [channelEntry, (sorted_webTs t0).insertionSort_eq, hint, hlen]
  norm_num [mean, sampleVariance, hs]

theorem groupByChannel_webBatch (t0 : ℤ) :
    groupByChannel (webBatch t0) = [("web", webTs t0)] := by
  have hne : ¬("web" = "") := by decide
  have hr : List.range 15 = [0,1,2,3,4,5,6,7,8,9,10,11,12,13,14] := by decide
  have hfm : (webBatch t0).filterMap truthyChannelOf = List.replicate 15 "web" := by
    simp only [webBatch, hr, List.map_cons, List.map_nil, List.filterMap_cons,
      List.filterMap_nil, truthyChannelOf, if_neg hne]
    rfl
  have hts : timestampsFor (webBatch t0) "web" = webTs t0 := by
    simp only [timestampsFor, webBatch, webTs, hr, List.map_cons, List.map_nil,
      List.filterMap_cons, List.filterMap_nil, truthyChannelOf, if_neg hne]
    norm_num
  have hd : distinctInOrder (List.replicate 15 "web") = ["web"] := by decide
  simp only [groupByChannel, hfm, hd, List.map_cons, List.map_nil, hts]

theorem cf_webBatch_eval (f : ℚ → ℚ) (hs : f 0 = 0) (t0 : ℤ) :
    calculate_channel_frequency f (webBatch t0) = [("web", ⟨15, 1, 48⟩)] := by
  have hlen : (webTs t0).length = 15 := by simp [webTs]
  rw [calculate_channel_frequency, groupByChannel_webBatch]
  simp only [List.filter_cons, hlen, List.filter_nil]
  norm_num [channelEntry_webTs f hs]

/-- C6: for any start instant, `calculate_channel_frequency` on 15 `web`
interactions spaced at exactly 48-hour intervals maps `web` to count 15,
regularity 1 and average interval 48 hours (for any square-root function
with `sqrt 0 = 0`, since the gaps have zero variance). -/
theorem channel_frequency_web_48h (f : ℚ → ℚ) (hs : f 0 = 0) (t0 : ℤ) :
    calculate_channel_frequency f (webBatch t0) = [("web", ⟨15, 1, 48⟩)] :=
  cf_webBatch_eval f hs t0

/-- Witness for C6 at `t0 = 0` with the zero square-root function. -/
theorem channel_frequency_web_48h_witness :
    calculate_channel_frequency (fun _ => 0) (webBatch 0) = [("web", ⟨15, 1, 48⟩)] :=
  channel_frequency_web_48h (fun _ => 0) rfl 0

/-- Witness for C7: on `webBatch 0` the single result entry has count 15 ≥ 10,
and the absent channel `email` (0 carrying interactions) is not a result key. -/
theorem channel_frequency_count_floor_witness :
    10 ≤ ((("web", ⟨15, 1, 48⟩) : String × ChannelStats)).2.count ∧
      ((("web", ⟨15, 1, 48⟩) : String × ChannelStats)).1 ≠ "email" := by
  have hmem : (("web", ⟨15, 1, 48⟩) : String × ChannelStats) ∈
      calculate_channel_frequency (fun _ => 0) (webBatch 0) := by
    rw [cf_webBatch_eval (fun _ => 0) rfl 0]
    exact List.mem_singleton.mpr rfl
  exact ⟨(channel_frequency_count_floor (fun _ => 0) (webBatch 0)).1 _ hmem,
    (channel_frequency_count_floor (fun _ => 0) (webBatch 0)).2 "email" (by decide) _ hmem⟩

/-! ## C9: the position-split trend of `calculate_engagement_score` -/

/-- C9: `calculate_engagement_score` never returns trend `decreasing`, and on
batches of at least 4 interactions it returns `increasing` exactly when the
batch length is odd and at most 9, `stable` otherwise: the comparison is
between the half sizes `len - len//2` and `len//2` of the same list. -/
theorem halfSplit_increase_iff (n : ℕ) :
    ((n / 2 : ℕ) : ℚ) * (12/10) < ((n - n / 2 : ℕ) : ℚ) ↔ n % 2 = 1 ∧ n ≤ 9 := by
  constructor
  · intro h
    have h10 : (12 : ℚ) * ((n / 2 : ℕ) : ℚ) < 10 * ((n - n / 2 : ℕ) : ℚ) := by linarith
    have hnat : 12 * (n / 2) < 10 * (n - n / 2) := by exact_mod_cast h10
    omega
  · intro h
    have hnat : 12 * (n / 2) < 10 * (n - n / 2) := by omega
    have h10 : (12 : ℚ) * ((n / 2 : ℕ) : ℚ) < 10 * ((n - n / 2 : ℕ) : ℚ) := by
      exact_mod_cast hnat
    linarith

theorem halfSplit_never_decrease (n : ℕ) :
    ¬ (((n - n / 2 : ℕ) : ℚ) < ((n / 2 : ℕ) : ℚ) * (8/10)) := by
  intro h
  have h10 : (10 : ℚ) * ((n - n / 2 : ℕ) : ℚ) < 8 * ((n / 2 : ℕ) : ℚ) := by linarith
  have hnat : 10 * (n - n / 2) < 8 * (n / 2) := by exact_mod_cast h10
  omega

theorem engagement_trend_characterisation (now : ℤ) (b : List Interaction) :
    (calculate_engagement_score now b).trend ≠ "decreasing" ∧
    (4 ≤ b.length →
      (calculate_engagement_score now b).trend =
        if b.length % 2 = 1 ∧ b.length ≤ 9 then "increasing" else "stable") := by
  by_cases hb : b = []
  · subst hb
    refine ⟨by simp [calculate_engagement_score], fun h4 => by simp at h4⟩
  · simp only [calculate_engagement_score, if_neg hb]
    constructor
    · split_ifs with h4 hinc hdec
      · simp
      · exact absurd hdec (halfSplit_never_decrease b.length)
      · simp
      · simp
    · intro h4
      rw [if_pos h4]
      by_cases hm : b.length % 2 = 1 ∧ b.length ≤ 9
      · rw [if_pos hm, if_pos ((halfSplit_increase_iff b.length).mpr hm)]
      · rw [if_neg hm, if_neg (fun hc => hm ((halfSplit_increase_iff b.length).mp hc)),
          if_neg (halfSplit_never_decrease b.length)]

/-- A batch of 5 field-less interactions, used to exercise the trend rule. -/
def trendBatch : List Interaction := List.replicate 5 ⟨none, none, none, none⟩

/-- Witness for C9: on a batch of 5 interactions the trend is `increasing`
(5 is odd and at most 9). -/
theorem engagement_trend_characterisation_witness :
    (calculate_engagement_score 0 trendBatch).trend = "increasing" := by
  have h := (engagement_trend_characterisation 0 trendBatch).2 (by decide)
  rw [h]
  decide

/-! ## C4: wall-clock dependence of the detectors -/

/-- A single interaction at epoch instant 0. -/
def epochBatch : List Interaction := [⟨none, some 0, none, none⟩]

theorem engagement_score_eq (now : ℤ) {b : List Interaction} (hb : b ≠ []) :
    (calculate_engagement_score now b).score
      = frequencyScore b * (35/100) + recencyScore now b * (30/100)
        + diversityScore b * (20/100) + richnessScore b * (15/100) := by
  simp only [calculate_engagement_score, if_neg hb]

theorem recencyScore_epochBatch_0 : recencyScore 0 epochBatch = 1 := by
  have h : batchTimestamps epochBatch = [0] := rfl
  rw [recencyScore, h]
  norm_num [List.max?_cons', max_def]

theorem recencyScore_epochBatch_100d : recencyScore 8640000 epochBatch = 0 := by
  have h : batchTimestamps epochBatch = [0] := rfl
  rw [recencyScore, h]
  have hf : Int.fdiv 8640000 86400 = 100 := by decide
  norm_num [List.max?_cons', hf, max_def]

/-- Counterexample to C4: `calculate_engagement_score` evaluated at two
different wall-clock instants (epoch 0 and 100 days later) yields different
results on the same batch, so the claim that no returned value depends on the
evaluation time is false. -/
theorem engagement_wall_clock_dependence :
    calculate_engagement_score 0 epochBatch ≠ calculate_engagement_score 8640000 epochBatch := by
  intro heq
  have hs := congrArg Engagement.score heq
  rw [engagement_score_eq 0 (by decide), engagement_score_eq 8640000 (by decide),
    recencyScore_epochBatch_0, recencyScore_epochBatch_100d] at hs
  linarith

/-- C4 (amended): `calculate_engagement_score` depends on the evaluation
instant only through the recency sub-score — two evaluations whose recency
sub-scores agree produce identical results.  (The other three detectors take
no time input at all in this embedding, mirroring that their source functions
never read the clock.) -/
theorem engagement_now_only_via_recency (b : List Interaction) (now₁ now₂ : ℤ)
    (h : recencyScore now₁ b = recencyScore now₂ b) :
    calculate_engagement_score now₁ b = calculate_engagement_score now₂ b := by
  simp only [calculate_engagement_score, h]

/-- Witness for the amended C4: one hour apart within the same day, the
engagement result is unchanged. -/
theorem recencyScore_epochBatch_1h : recencyScore 3600 epochBatch = 1 := by
  have h : batchTimestamps epochBatch = [0] := rfl
  rw [recencyScore, h]
  have hf : Int.fdiv 3600 86400 = 0 := by decide
  norm_num [List.max?_cons', hf, max_def]

theorem engagement_now_only_via_recency_witness :
    calculate_engagement_score 0 epochBatch = calculate_engagement_score 3600 epochBatch :=
  engagement_now_only_via_recency epochBatch 0 3600
    (by rw [recencyScore_epochBatch_0, recencyScore_epochBatch_1h])

/-! ## C2: range of the engagement sub-scores and score -/

/-- A single interaction one second in the future of epoch 0. -/
def futureBatch : List Interaction := [⟨none, some 1, none, none⟩]

/-- Counterexample to C2: with the most recent timestamp one second after the
evaluation instant, `timedelta.days` is −1 and the recency sub-score is
31/30 > 1, so the sub-scores are not all within [0,1] on such batches. -/
theorem recency_above_one_on_future_timestamp :
    1 < recencyScore 0 futureBatch := by
  have h : batchTimestamps futureBatch = [1] := rfl
  rw [recencyScore, h]
  have hf : Int.fdiv (-1) 86400 = -1 := by decide
  norm_num [List.max?_cons', hf, max_def]

theorem contentLengths_nonneg {b : List Interaction} : ∀ x ∈ contentLengths b, 0 ≤ x := by
  intro x hx
  obtain ⟨i, _, hfi⟩ := List.mem_filterMap.mp hx
  rcases hc : i.content with _ | c
  · rw [hc] at hfi
    simp at hfi
  · rw [hc] at hfi
    by_cases hce : c = ""
    · simp [hce] at hfi
    · simp [hce] at hfi
      rw [← hfi]
      positivity

theorem engagement_interaction_count (now : ℤ) (b : List Interaction) :
    (calculate_engagement_score now b).interaction_count = b.length := by
  by_cases hb : b = []
  · subst hb
    simp [calculate_engagement_score]
  · simp only [calculate_engagement_score, if_neg hb]

/-- C2 (amended): provided no timestamp of the batch lies after the evaluation
instant, all four sub-scores and the weighted score of
`calculate_engagement_score` lie in [0,1]; `interaction_count` equals the
batch length for every batch. -/
theorem engagement_bounds (now : ℤ) (b : List Interaction)
    (h : ∀ t ∈ batchTimestamps b, t ≤ now) :
    (0 ≤ frequencyScore b ∧ frequencyScore b ≤ 1) ∧
    (0 ≤ recencyScore now b ∧ recencyScore now b ≤ 1) ∧
    (0 ≤ diversityScore b ∧ diversityScore b ≤ 1) ∧
    (0 ≤ richnessScore b ∧ richnessScore b ≤ 1) ∧
    (0 ≤ (calculate_engagement_score now b).score ∧
      (calculate_engagement_score now b).score ≤ 1) ∧
    (calculate_engagement_score now b).interaction_count = b.length := by
  have hfreq : 0 ≤ frequencyScore b ∧ frequencyScore b ≤ 1 := by
    unfold frequencyScore
    exact ⟨le_min (by norm_num) (by positivity), min_le_left _ _⟩
  have hrec : 0 ≤ recencyScore now b ∧ recencyScore now b ≤ 1 := by
    rw [recencyScore]
    rcases hmax : (batchTimestamps b).max? with _ | last
    · norm_num
    · have hmem : last ∈ batchTimestamps b := List.max?_mem max_choice hmax
      have hle : last ≤ now := h last hmem
      have hd : 0 ≤ (now - last).fdiv 86400 :=
        Int.fdiv_nonneg (sub_nonneg.mpr hle) (by norm_num)
      have hdq : (0 : ℚ) ≤ (((now - last).fdiv 86400 : ℤ) : ℚ) := by exact_mod_cast hd
      constructor
      · exact le_max_left _ _
      · exact max_le (by norm_num) (by linarith)
  have hdiv : 0 ≤ diversityScore b ∧ diversityScore b ≤ 1 := by
    unfold diversityScore
    exact ⟨le_min (by norm_num) (by positivity), min_le_left _ _⟩
  have hrich : 0 ≤ richnessScore b ∧ richnessScore b ≤ 1 := by
    unfold richnessScore
    split_ifs
    · norm_num
    · refine ⟨le_min (by norm_num) ?_, min_le_left _ _⟩
      exact div_nonneg (mean_nonneg contentLengths_nonneg) (by norm_num)
  refine ⟨hfreq, hrec, hdiv, hrich, ?_, engagement_interaction_count now b⟩
  by_cases hb : b = []
  · subst hb
    simp [calculate_engagement_score]
  · rw [engagement_score_eq now hb]
    constructor
    · nlinarith [hfreq.1, hrec.1, hdiv.1, hrich.1]
    · nlinarith [hfreq.2, hrec.2, hdiv.2, hrich.2, hfreq.1, hrec.1, hdiv.1, hrich.1]

/-- Witness for C2 (amended) on `epochBatch` at evaluation instant 0. -/
theorem engagement_bounds_witness :
    (0 ≤ frequencyScore epochBatch ∧ frequencyScore epochBatch ≤ 1) ∧
    (0 ≤ recencyScore 0 epochBatch ∧ recencyScore 0 epochBatch ≤ 1) ∧
    (0 ≤ diversityScore epochBatch ∧ diversityScore epochBatch ≤ 1) ∧
    (0 ≤ richnessScore epochBatch ∧ richnessScore epochBatch ≤ 1) ∧
    (0 ≤ (calculate_engagement_score 0 epochBatch).score ∧
      (calculate_engagement_score 0 epochBatch).score ≤ 1) ∧
    (calculate_engagement_score 0 epochBatch).interaction_count = epochBatch.length :=
  engagement_bounds 0 epochBatch (by decide)

/-! ## C3: the dominant sentiment label is the raw most frequent label -/

/-- A batch whose sentiment labels are outside
`positive`/`negative`/`neutral`. -/
def oddLabelBatch : List Interaction :=
  [⟨none, none, some "mixed", none⟩, ⟨none, none, some "mixed", none⟩,
   ⟨none, none, some "odd", none⟩]

theorem sentiment_consistency_oddLabelBatch :
    (analyze_sentiment_trend oddLabelBatch).consistency = 2/3 := by
  have hlab : sentimentLabels oddLabelBatch = ["mixed", "mixed", "odd"] := rfl
  have hdom : mostCommon "" ["mixed", "mixed", "odd"] = "mixed" := by decide
  simp only [analyze_sentiment_trend, hlab, hdom]
  rw [if_neg (by decide : ¬(["mixed", "mixed", "odd"] = ([] : List String)))]
  have hcnt : List.count "mixed" ["odd"] = 0 := by decide
  norm_num [hcnt]

/-- Counterexample to C3: on labels `mixed, mixed, odd` the returned dominant
label is the raw label `mixed` — not one of `positive`/`negative`/`neutral` —
and the consistency is 2/3, not the 1 that counting non-positive/negative
labels as `neutral` would give. -/
theorem sentiment_dominant_not_normalised :
    (analyze_sentiment_trend oddLabelBatch).dominant = "mixed" ∧
    ¬ ((analyze_sentiment_trend oddLabelBatch).dominant = "positive" ∨
       (analyze_sentiment_trend oddLabelBatch).dominant = "negative" ∨
       (analyze_sentiment_trend oddLabelBatch).dominant = "neutral") ∧
    (analyze_sentiment_trend oddLabelBatch).consistency ≠ 1 := by
  refine ⟨by decide, by decide, ?_⟩
  rw [sentiment_consistency_oddLabelBatch]
  norm_num

/-- C3 (amended): when the batch has scorable sentiments, `dominant` is the
most frequent *raw* label (one of the labels present in the batch), the
neutral-coercion applies only to the numeric polarity, and `consistency` is
the count of that raw dominant label over the scored count; in particular,
when every present label is one of the three canonical ones, so is the
dominant label. -/
theorem sentiment_dominant_raw (b : List Interaction) (h : sentimentLabels b ≠ []) :
    (analyze_sentiment_trend b).dominant ∈ sentimentLabels b ∧
    (analyze_sentiment_trend b).consistency =
      ((sentimentLabels b).count (analyze_sentiment_trend b).dominant : ℚ) /
        ((sentimentLabels b).length : ℚ) ∧
    ((∀ l ∈ sentimentLabels b, l = "positive" ∨ l = "negative" ∨ l = "neutral") →
      ((analyze_sentiment_trend b).dominant = "positive" ∨
       (analyze_sentiment_trend b).dominant = "negative" ∨
       (analyze_sentiment_trend b).dominant = "neutral")) := by
  have hdom : (analyze_sentiment_trend b).dominant = mostCommon "" (sentimentLabels b) := by
    simp only [analyze_sentiment_trend, if_neg h]
  have hmem : mostCommon "" (sentimentLabels b) ∈ sentimentLabels b := mostCommon_mem "" h
  refine ⟨hdom ▸ hmem, ?_, fun hall => hdom ▸ hall _ hmem⟩
  simp only [analyze_sentiment_trend, if_neg h]

/-- A batch with one `positive` sentiment. -/
def positiveBatch : List Interaction := [⟨none, none, some "positive", none⟩]

/-- Witness for the amended C3 on a batch with a single `positive` label. -/
theorem sentiment_dominant_raw_witness :
    (analyze_sentiment_trend positiveBatch).dominant ∈ sentimentLabels positiveBatch ∧
    ((analyze_sentiment_trend positiveBatch).dominant = "positive" ∨
     (analyze_sentiment_trend positiveBatch).dominant = "negative" ∨
     (analyze_sentiment_trend positiveBatch).dominant = "neutral") :=
  ⟨(sentiment_dominant_raw positiveBatch (by decide)).1,
   (sentiment_dominant_raw positiveBatch (by decide)).2.2 (by decide)⟩

/-! ## C5: selection rule of `detect_temporal_pattern` -/

/-- C5: `detect_temporal_pattern` returns no pattern when fewer than 5
interactions carry timestamps; otherwise it returns a `day_of_week` pattern
iff day confidence > 0.7 and ≥ time confidence, else a `time_of_day` pattern
iff time confidence > 0.7, else no pattern; any returned pattern is one of
these two kinds (and at most one pattern is returned, the result being an
optional value). -/
theorem temporal_pattern_selection (b : List Interaction) :
    ((batchTimestamps b).length < 5 → detect_temporal_pattern b = none) ∧
    ((∃ p, detect_temporal_pattern b = some p ∧ p.pattern_type = "day_of_week") ↔
      (5 ≤ (batchTimestamps b).length ∧ 7/10 < dayConfidence b ∧
        timeConfidence b ≤ dayConfidence b)) ∧
    ((∃ p, detect_temporal_pattern b = some p ∧ p.pattern_type = "time_of_day") ↔
      (5 ≤ (batchTimestamps b).length ∧ 7/10 < timeConfidence b ∧
        ¬ (7/10 < dayConfidence b ∧ timeConfidence b ≤ dayConfidence b))) ∧
    (∀ p, detect_temporal_pattern b = some p →
      p.pattern_type = "day_of_week" ∨ p.pattern_type = "time_of_day") := by
  have hle : (batchTimestamps b).length ≤ b.length := List.length_filterMap_le _ _
  simp only [detect_temporal_pattern]
  split_ifs with hlen5 hts5 hday htime
  · refine ⟨fun _ => rfl, ?_, ?_, fun p hp => by simp at hp⟩
    · constructor
      · rintro ⟨p, hp, -⟩
        simp at hp
      · rintro ⟨h5, -⟩
        omega
    · constructor
      · rintro ⟨p, hp, -⟩
        simp at hp
      · rintro ⟨h5, -⟩
        omega
  · have hts5' : (batchTimestamps b).length < 5 := hts5
    refine ⟨fun _ => rfl, ?_, ?_, fun p hp => by simp at hp⟩
    · constructor
      · rintro ⟨p, hp, -⟩
        simp at hp
      · rintro ⟨h5, -⟩
        omega
    · constructor
      · rintro ⟨p, hp, -⟩
        simp at hp
      · rintro ⟨h5, -⟩
        omega
  · have hts : ¬ ((batchTimestamps b).length < 5) := hts5
    have hday' : 7/10 < dayConfidence b ∧ timeConfidence b ≤ dayConfidence b := hday
    refine ⟨fun hc => absurd hc hts, ?_, ?_, fun p hp => ?_⟩
    · constructor
      · intro _
        exact ⟨by omega, hday'⟩
      · intro _
        exact ⟨_, rfl, rfl⟩
    · constructor
      · rintro ⟨p, hp, ht⟩
        rw [← Option.some.inj hp] at ht
        simp at ht
      · rintro ⟨-, -, hn⟩
        exact absurd hday' hn
    · rw [← Option.some.inj hp]
      left
      rfl
  · have hts : ¬ ((batchTimestamps b).length < 5) := hts5
    have hday' : ¬ (7/10 < dayConfidence b ∧ timeConfidence b ≤ dayConfidence b) := hday
    have htime' : 7/10 < timeConfidence b := htime
    refine ⟨fun hc => absurd hc hts, ?_, ?_, fun p hp => ?_⟩
    · constructor
      · rintro ⟨p, hp, ht⟩
        rw [← Option.some.inj hp] at ht
        simp at ht
      · rintro ⟨-, hd⟩
        exact absurd hd hday'
    · constructor
      · intro _
        exact ⟨by omega, htime', hday'⟩
      · intro _
        exact ⟨_, rfl, rfl⟩
    · rw [← Option.some.inj hp]
      right
      rfl
  · have hday' : ¬ (7/10 < dayConfidence b ∧ timeConfidence b ≤ dayConfidence b) := hday
    have htime' : ¬ (7/10 < timeConfidence b) := htime
    refine ⟨fun _ => rfl, ?_, ?_, fun p hp => by simp at hp⟩
    · constructor
      · rintro ⟨p, hp, -⟩
        simp at hp
      · rintro ⟨-, hd⟩
        exact absurd hd hday'
    · constructor
      · rintro ⟨p, hp, -⟩
        simp at hp
      · rintro ⟨-, ht, -⟩
        exact absurd ht htime'

/-- Five interactions at epoch instant 0 (a Thursday, hour 0). -/
def temporalBatch : List Interaction := List.replicate 5 ⟨none, some 0, none, none⟩

theorem dayConfidence_temporalBatch : dayConfidence temporalBatch = 1 := by
  have hmap : ((batchTimestamps temporalBatch).map weekdayOf) = [3, 3, 3, 3, 3] := by decide
  have hl : (batchTimestamps temporalBatch).length = 5 := by decide
  have hmc : mostCommon 0 ([3, 3, 3, 3, 3] : List ℤ) = 3 := by decide
  have hcount : List.count (3 : ℤ) [3, 3, 3, 3, 3] = 5 := by decide
  simp only [dayConfidence, hmap, hl, hmc, hcount]
  norm_num

theorem timeConfidence_temporalBatch : timeConfidence temporalBatch = 1 := by
  have hmap : ((batchTimestamps temporalBatch).map (fun t => (hourOf t).fdiv 4))
      = [0, 0, 0, 0, 0] := by decide
  have hl : (batchTimestamps temporalBatch).length = 5 := by decide
  have hmc : mostCommon 0 ([0, 0, 0, 0, 0] : List ℤ) = 0 := by decide
  have hcount : List.count (0 : ℤ) [0, 0, 0, 0, 0] = 5 := by decide
  simp only [timeConfidence, hmap, hl, hmc, hcount]
  norm_num

/-- Witness for C5: five interactions all on the same weekday produce a
`day_of_week` pattern. -/
theorem temporal_pattern_selection_witness :
    ∃ p, detect_temporal_pattern temporalBatch = some p ∧ p.pattern_type = "day_of_week" :=
  (temporal_pattern_selection temporalBatch).2.1.mpr
    ⟨by decide, by rw [dayConfidence_temporalBatch]; norm_num,
     by rw [dayConfidence_temporalBatch, timeConfidence_temporalBatch]⟩

/-! ## C10: engagement patterns always carry level `high` -/

theorem engagement_level_high_iff (now : ℤ) (b : List Interaction) :
    (calculate_engagement_score now b).level = "high" ↔
      7/10 ≤ (calculate_engagement_score now b).score := by
  by_cases hb : b = []
  · subst hb
    simp [calculate_engagement_score]
  · simp only [calculate_engagement_score, if_neg hb]
    split_ifs with h1 h2
    · simp [h1]
    · simp [h1]
    · simp [h1]

/-- C10: `calculate_engagement_score` assigns level `high` exactly when the
score is at least 0.7, and since the aggregator emits an engagement Pattern
only when the score exceeds 0.7, every emitted engagement Pattern has
pattern type `high_engagement`. -/
theorem engagement_pattern_type_high (now : ℤ) (b : List Interaction) :
    ((calculate_engagement_score now b).level = "high" ↔
      7/10 ≤ (calculate_engagement_score now b).score) ∧
    ∀ p ∈ engagementPatterns now b, p.pattern_type = "high_engagement" := by
  refine ⟨engagement_level_high_iff now b, fun p hp => ?_⟩
  simp only [engagementPatterns] at hp
  by_cases hs : 7/10 < (calculate_engagement_score now b).score
  · rw [if_pos hs] at hp
    have hp' := List.mem_singleton.mp hp
    have hlev : (calculate_engagement_score now b).level = "high" :=
      (engagement_level_high_iff now b).mpr (le_of_lt hs)
    rw [hp']
    show ((calculate_engagement_score now b).level ++ "_engagement") = "high_engagement"
    rw [hlev]
    rfl
  · rw [if_neg hs] at hp
    simp at hp

/-- A 200-character content string. -/
def c200 : String :=
  "aaaaaaaaaaaaaaaaaaaaaaaaaaaaaaaaaaaaaaaaaaaaaaaaaaaaaaaaaaaaaaaaaaaaaaaaaaaaaaaaaaaaaaaaaaaaaaaaaaaaaaaaaaaaaaaaaaaaaaaaaaaaaaaaaaaaaaaaaaaaaaaaaaaaaaaaaaaaaaaaaaaaaaaaaaaaaaaaaaaaaaaaaaaaaaaaaaaaaaaa"

/-- Ten interactions on three distinct channels with one rich content string,
whose engagement score at evaluation instant 0 is 18/25 > 0.7. -/
def highBatch : List Interaction :=
  [⟨some "web", some 0, none, some c200⟩, ⟨some "email", none, none, none⟩,
   ⟨some "chat", none, none, none⟩] ++ List.replicate 7 ⟨some "web", none, none, none⟩

theorem frequencyScore_highBatch : frequencyScore highBatch = 1/5 := by
  have hl : highBatch.length = 10 := by decide
  rw [frequencyScore, hl]
  norm_num [min_def]

theorem recencyScore_highBatch : recencyScore 0 highBatch = 1 := by
  have h : batchTimestamps highBatch = [0] := by decide
  rw [recencyScore, h]
  norm_num [List.max?_cons', max_def]

theorem diversityScore_highBatch : diversityScore highBatch = 1 := by
  have h : (distinctChannels highBatch).length = 3 := by decide
  rw [diversityScore, h]
  norm_num [min_def]

theorem richnessScore_highBatch : richnessScore highBatch = 1 := by
  have hcl : contentLengths highBatch = [(c200.length : ℚ)] := rfl
  have hlen200 : c200.length = 200 := by decide
  rw [richnessScore, hcl, hlen200]
  rw [if_neg (List.cons_ne_nil _ _)]
  norm_num [mean, min_def]

theorem engagement_score_highBatch :
    (calculate_engagement_score 0 highBatch).score = 18/25 := by
  rw [engagement_score_eq 0 (by decide), frequencyScore_highBatch, recencyScore_highBatch,
    diversityScore_highBatch, richnessScore_highBatch]
  norm_num

/-- Witness for C10: `highBatch` produces an engagement Pattern, and its
pattern type is `high_engagement`. -/
theorem engagement_pattern_type_high_witness :
    ∃ p ∈ engagementPatterns 0 highBatch, p.pattern_type = "high_engagement" := by
  have hs : 7/10 < (calculate_engagement_score 0 highBatch).score := by
    rw [engagement_score_highBatch]
    norm_num
  have hne : engagementPatterns 0 highBatch ≠ [] := by
    simp only [engagementPatterns, if_pos hs]
    exact List.cons_ne_nil _ _
  obtain ⟨p, hp⟩ := List.exists_mem_of_ne_nil _ hne
  exact ⟨p, hp, (engagement_pattern_type_high 0 highBatch).2 p hp⟩

/-! ## C1: the aggregator output is filtered, sorted and stable -/

instance : IsTotal Pattern confGE :=
  ⟨fun p q => le_total q.confidence p.confidence⟩

instance : IsTrans Pattern confGE :=
  ⟨fun _ _ _ hab hbc => le_trans hbc hab⟩

theorem filter_orderedInsert_confGE (c : ℚ) (a : Pattern) (l : List Pattern) :
    (List.orderedInsert confGE a l).filter (fun p => p.confidence = c) =
      if a.confidence = c then a :: l.filter (fun p => p.confidence = c)
      else l.filter (fun p => p.confidence = c) := by
  induction l with
  | nil =>
    simp only [List.orderedInsert_nil, List.filter_cons, List.filter_nil]
    split_ifs with h1 h2 h2 <;> simp_all
  | cons b bs ih =>
    rw [List.orderedInsert]
    by_cases hab : confGE a b
    · rw [if_pos hab]
      by_cases hac : a.confidence = c <;> simp [List.filter_cons, hac]
    · rw [if_neg hab]
      by_cases hac : a.confidence = c
      · have hbc : ¬ (b.confidence = c) := by
          intro hb
          exact hab (le_of_eq (hb.trans hac.symm))
        simp [List.filter_cons, hbc, ih, hac]
      · simp [List.filter_cons, ih, hac]

theorem filter_insertionSort_confGE (c : ℚ) (l : List Pattern) :
    (List.insertionSort confGE l).filter (fun p => p.confidence = c) =
      l.filter (fun p => p.confidence = c) := by
  induction l with
  | nil => rfl
  | cons a l ih =>
    rw [List.insertionSort, filter_orderedInsert_confGE]
    by_cases hac : a.confidence = c
    · rw [if_pos hac, ih, List.filter_cons, if_pos (by simpa using hac)]
    · rw [if_neg hac, ih, List.filter_cons, if_neg (by simpa using hac)]

/-- C1: every Pattern returned by the aggregator has confidence ≥ 0.7, the
returned list is sorted in non-increasing order of confidence, and the sort
is stable: for every confidence value, the returned Patterns carrying it
appear in exactly the detector-emission order (as filtered to ≥ 0.7). -/
theorem detect_patterns_sorted_filtered (sqrtFn : ℚ → ℚ) (now : ℤ) (b : List Interaction) :
    (∀ p ∈ detect_patterns sqrtFn now b, 7/10 ≤ p.confidence) ∧
    List.Sorted confGE (detect_patterns sqrtFn now b) ∧
    (5 ≤ b.length → ∀ c : ℚ,
      (detect_patterns sqrtFn now b).filter (fun p => p.confidence = c) =
        ((emittedPatterns sqrtFn now b).filter (fun p => 7/10 ≤ p.confidence)).filter
          (fun p => p.confidence = c)) := by
  unfold detect_patterns
  split_ifs with hlen
  · exact ⟨fun p hp => by simp at hp, List.sorted_nil, fun h5 => by omega⟩
  · refine ⟨?_, List.sorted_insertionSort confGE _, fun _ c => filter_insertionSort_confGE c _⟩
    intro p hp
    rw [List.mem_insertionSort] at hp
    have := (List.mem_filter.mp hp).2
    simpa using this

/-- Five interactions at epoch 0 with `positive` sentiment. -/
def aggBatch : List Interaction := List.replicate 5 ⟨none, some 0, some "positive", none⟩

theorem sentiment_consistency_aggBatch :
    (analyze_sentiment_trend aggBatch).consistency = 1 := by
  have hlab : sentimentLabels aggBatch =
      ["positive", "positive", "positive", "positive", "positive"] := rfl
  have hdom : mostCommon "" ["positive", "positive", "positive", "positive", "positive"]
      = "positive" := by decide
  have hcnt : List.count "positive"
      ["positive", "positive", "positive", "positive", "positive"] = 5 := by decide
  simp only [analyze_sentiment_trend, hlab, hdom, hcnt]
  rw [if_neg (by decide :
    ¬(["positive", "positive", "positive", "positive", "positive"] = ([] : List String)))]
  norm_num

/-- Witness for C1: on `aggBatch` the aggregator returns a pattern, and that
pattern's confidence is at least 0.7. -/
theorem detect_patterns_sorted_filtered_witness :
    ∃ p ∈ detect_patterns (fun _ => 0) 0 aggBatch, 7/10 ≤ p.confidence := by
  have hcons : 7/10 < (analyze_sentiment_trend aggBatch).consistency := by
    rw [sentiment_consistency_aggBatch]
    norm_num
  have hsp : sentimentPatterns aggBatch ≠ [] := by
    simp only [sentimentPatterns, if_pos hcons]
    exact List.cons_ne_nil _ _
  obtain ⟨q, hq⟩ := List.exists_mem_of_ne_nil _ hsp
  have hqconf : q.confidence = (analyze_sentiment_trend aggBatch).consistency := by
    have hq' : q ∈ sentimentPatterns aggBatch := hq
    simp only [sentimentPatterns, if_pos hcons] at hq'
    rw [List.mem_singleton.mp hq']
  have hmem1 : q ∈ emittedPatterns (fun _ => 0) 0 aggBatch := by
    unfold emittedPatterns
    exact List.mem_append.mpr (Or.inl (List.mem_append.mpr (Or.inl
      (List.mem_append.mpr (Or.inr hq)))))
  have hmem2 : q ∈ (emittedPatterns (fun _ => 0) 0 aggBatch).filter
      (fun p => 7/10 ≤ p.confidence) :=
    List.mem_filter.mpr ⟨hmem1, by simp only [hqconf, decide_eq_true_eq]; exact le_of_lt hcons⟩
  have hout : q ∈ detect_patterns (fun _ => 0) 0 aggBatch := by
    rw [detect_patterns, if_neg (by decide : ¬(aggBatch.length < 5))]
    exact (List.mem_insertionSort confGE).mpr hmem2
  exact ⟨q, hout, (detect_patterns_sorted_filtered (fun _ => 0) 0 aggBatch).1 q hout⟩

/-! ## C8: well-formed input never raises

Checked re-embeddings of the four detectors in the `Except` monad: every
partial primitive the Python code uses (`statistics.mean` on empty data,
`statistics.stdev` on fewer than two points, `most_common(1)[0]` on an empty
counter, `max()` on an empty sequence, list indexing) is modelled as a
fallible operation, and the theorem shows each checked detector returns
`.ok` of the plain detector's result on every input. -/

/-- `statistics.mean`, which raises on empty data. -/
def meanE (l : List ℚ) : Except String ℚ :=
  if l = [] then .error "mean requires at least one data point" else .ok (mean l)

/-- `statistics.stdev`, which raises on fewer than two data points. -/
def stdevE (sqrtFn : ℚ → ℚ) (l : List ℚ) : Except String ℚ :=
  if l.length < 2 then .error "stdev requires at least two data points"
  else .ok (sqrtFn (sampleVariance l))

/-- `Counter(xs).most_common(1)[0][0]`, which raises on an empty counter. -/
def mostCommonE {α : Type} [DecidableEq α] (xs : List α) : Except String α :=
  match distinctInOrder xs with
  | [] => .error "index out of range on most_common of empty counter"
  | d :: ds => .ok (ds.foldl (fun best y => if xs.count best < xs.count y then y else best) d)

/-- `max()`, which raises on an empty sequence. -/
def maxE (l : List Timestamp) : Except String Timestamp :=
  match l.max? with
  | some m => .ok m
  | none => .error "max of empty sequence"

/-- List indexing, which raises out of range. -/
def getE {α : Type} (l : List α) (n : ℕ) : Except String α :=
  if h : n < l.length then .ok (l.get ⟨n, h⟩) else .error "list index out of range"

/-- Checked per-channel loop body of `calculate_channel_frequency`. -/
def channelEntryE (sqrtFn : ℚ → ℚ) (timestamps : List Timestamp) :
    Except String ChannelStats :=
  let count := timestamps.length
  let sorted := List.insertionSort (· ≤ ·) timestamps
  let intervals := hourIntervals sorted
  if 1 < intervals.length then do
    let avg ← meanE intervals
    if 0 < avg then do
      let sd ← stdevE sqrtFn intervals
      let cv := sd / avg
      pure ⟨count, max 0 (min 1 (1 / (1 + cv))), avg⟩
    else pure ⟨count, 0, 0⟩
  else pure ⟨count, 0, 0⟩

/-- Checked result-building loop of `calculate_channel_frequency`. -/
def entriesE (sqrtFn : ℚ → ℚ) :
    List (String × List Timestamp) → Except String (List (String × ChannelStats))
  | [] => pure []
  | g :: rest => do
      let e ← channelEntryE sqrtFn g.2
      let r ← entriesE sqrtFn rest
      pure ((g.1, e) :: r)

/-- Checked `calculate_channel_frequency`. -/
def calculate_channel_frequencyE (sqrtFn : ℚ → ℚ) (interactions : List Interaction) :
    Except String (List (String × ChannelStats)) :=
  entriesE sqrtFn ((groupByChannel interactions).filter (fun g => 10 ≤ g.2.length))

/-- Checked `analyze_sentiment_trend`. -/
def analyze_sentiment_trendE (interactions : List Interaction) :
    Except String SentimentTrend :=
  let labels := sentimentLabels interactions
  let scores := labels.map polarity
  if labels = [] then pure ⟨"neutral", 0, 0, "stable"⟩
  else do
    let dominant ← mostCommonE labels
    let average ← meanE scores
    let direction ←
      if 4 ≤ scores.length then do
        let mid := scores.length / 2
        let firstHalf ← meanE (scores.take mid)
        let secondHalf ← meanE (scores.drop mid)
        let diff := secondHalf - firstHalf
        pure (if 1/5 < diff then "improving"
              else if diff < -(1/5) then "declining"
              else "stable")
      else pure "stable"
    pure ⟨dominant, (labels.count dominant : ℚ) / labels.length, average, direction⟩

/-- Checked `detect_temporal_pattern`. -/
def detect_temporal_patternE (interactions : List Interaction) :
    Except String (Option TemporalPattern) :=
  if interactions.length < 5 then pure none
  else
    let timestamps := batchTimestamps interactions
    if timestamps.length < 5 then pure none
    else do
      let days := timestamps.map weekdayOf
      let mostDay ← mostCommonE days
      let dayCount := days.count mostDay
      let dayConf := (dayCount : ℚ) / timestamps.length
      let blocks := timestamps.map (fun t => (hourOf t).fdiv 4)
      let mostBlock ← mostCommonE blocks
      let blockCount := blocks.count mostBlock
      let timeConf := (blockCount : ℚ) / timestamps.length
      if 7/10 < dayConf ∧ timeConf ≤ dayConf then do
        let dayName ← getE dayNames mostDay.toNat
        pure (some { pattern_type := "day_of_week"
                     confidence := dayConf
                     description := "Customer frequently interacts on " ++ dayName
                     metadata := [("day_of_week", .z mostDay), ("day_name", .s dayName)]
                     occurrences := dayCount })
      else if 7/10 < timeConf then do
        let timeRange ← getE blockRanges mostBlock.toNat
        pure (some { pattern_type := "time_of_day"
                     confidence := timeConf
                     description := "Customer frequently interacts during " ++ timeRange
                     metadata := [("hour_block", .z mostBlock), ("time_range", .s timeRange)]
                     occurrences := blockCount })
      else pure none

/-- Checked `calculate_engagement_score`. -/
def calculate_engagement_scoreE (now : ℤ) (interactions : List Interaction) :
    Except String Engagement :=
  if interactions = [] then pure ⟨0, "low", 0, "stable"⟩
  else do
    let frequency := min 1 ((interactions.length : ℚ) / 50)
    let timestamps := batchTimestamps interactions
    let recency ←
      if timestamps = [] then pure (0 : ℚ)
      else do
        let last ← maxE timestamps
        pure (max 0 (1 - (((now - last).fdiv 86400 : ℤ) : ℚ) / 30))
    let diversity := min 1 (((distinctChannels interactions).length : ℚ) / 3)
    let richness ←
      if contentLengths interactions = [] then pure ((1 : ℚ)/2)
      else do
        let avgLen ← meanE (contentLengths interactions)
        pure (min 1 (avgLen / 200))
    let score := frequency * (35/100) + recency * (30/100) + diversity * (20/100)
               + richness * (15/100)
    let level := if 7/10 ≤ score then "high"
                 else if 4/10 ≤ score then "medium"
                 else "low"
    let trend :=
      if 4 ≤ interactions.length then
        let mid := interactions.length / 2
        let firstHalf := (mid : ℚ)
        let secondHalf := ((interactions.length - mid : ℕ) : ℚ)
        if firstHalf * (12/10) < secondHalf then "increasing"
        else if secondHalf < firstHalf * (8/10) then "decreasing"
        else "stable"
      else "stable"
    pure ⟨score, level, interactions.length, trend⟩

theorem exceptBind_ok {α β : Type} (a : α) (f : α → Except String β) :
    (Except.ok a >>= f) = f a := rfl

theorem channelEntryE_ok (sqrtFn : ℚ → ℚ) (ts : List Timestamp) :
    channelEntryE sqrtFn ts = .ok (channelEntry sqrtFn ts) := by
  simp only [channelEntryE, channelEntry]
  by_cases h1 : 1 < (hourIntervals (List.insertionSort (· ≤ ·) ts)).length
  · rw [if_pos h1, if_pos h1]
    have hne : hourIntervals (List.insertionSort (· ≤ ·) ts) ≠ [] := by
      intro h0
      rw [h0] at h1
      simp at h1
    simp only [meanE, if_neg hne, exceptBind_ok]
    by_cases h2 : 0 < mean (hourIntervals (List.insertionSort (· ≤ ·) ts))
    · rw [if_pos h2, if_pos h2]
      have hlen2 : ¬ ((hourIntervals (List.insertionSort (· ≤ ·) ts)).length < 2) := by
        omega
      simp only [stdevE, if_neg hlen2, exceptBind_ok]
      rfl
    · rw [if_neg h2, if_neg h2]
      rfl
  · rw [if_neg h1, if_neg h1]
    rfl

theorem entriesE_ok (sqrtFn : ℚ → ℚ) (gs : List (String × List Timestamp)) :
    entriesE sqrtFn gs = .ok (gs.map (fun g => (g.1, channelEntry sqrtFn g.2))) := by
  induction gs with
  | nil => rfl
  | cons g rest ih =>
    rw [entriesE]
    simp only [channelEntryE_ok, ih, exceptBind_ok, List.map_cons]
    rfl

theorem calculate_channel_frequencyE_ok (sqrtFn : ℚ → ℚ) (b : List Interaction) :
    calculate_channel_frequencyE sqrtFn b = .ok (calculate_channel_frequency sqrtFn b) := by
  rw [calculate_channel_frequencyE, entriesE_ok, calculate_channel_frequency]

theorem exceptPure_bind {α β : Type} (a : α) (f : α → Except String β) :
    ((pure a : Except String α) >>= f) = f a := rfl

theorem mostCommonE_ok {α : Type} [DecidableEq α] (junk : α) {xs : List α} (h : xs ≠ []) :
    mostCommonE xs = .ok (mostCommon junk xs) := by
  rcases hd : distinctInOrder xs with _ | ⟨d, ds⟩
  · exact absurd (distinctInOrder_eq_nil.mp hd) h
  · rw [mostCommonE, mostCommon, hd]

theorem analyze_sentiment_trendE_ok (b : List Interaction) :
    analyze_sentiment_trendE b = .ok (analyze_sentiment_trend b) := by
  simp only [analyze_sentiment_trendE, analyze_sentiment_trend]
  by_cases hl : sentimentLabels b = []
  · rw [if_pos hl, if_pos hl]
    rfl
  · rw [if_neg hl, if_neg hl]
    have hsne : (sentimentLabels b).map polarity ≠ [] := by
      intro h0
      exact hl (List.map_eq_nil_iff.mp h0)
    simp only [mostCommonE_ok "" hl, exceptBind_ok, meanE, if_neg hsne]
    by_cases h4 : 4 ≤ ((sentimentLabels b).map polarity).length
    · rw [if_pos h4, if_pos h4]
      have htake : ((sentimentLabels b).map polarity).take
          (((sentimentLabels b).map polarity).length / 2) ≠ [] := by
        intro h0
        have := congrArg List.length h0
        simp only [List.length_take, List.length_nil] at this
        omega
      have hdrop : ((sentimentLabels b).map polarity).drop
          (((sentimentLabels b).map polarity).length / 2) ≠ [] := by
        intro h0
        have := congrArg List.length h0
        simp only [List.length_drop, List.length_nil] at this
        omega
      simp only [meanE, if_neg htake, if_neg hdrop, exceptBind_ok, exceptPure_bind]
      rfl
    · rw [if_neg h4, if_neg h4]
      rfl

theorem weekdayOf_bounds (t : Timestamp) : 0 ≤ weekdayOf t ∧ weekdayOf t < 7 := by
  unfold weekdayOf
  exact ⟨Int.emod_nonneg _ (by norm_num), Int.emod_lt_of_pos _ (by norm_num)⟩

theorem hourBlock_bounds (t : Timestamp) :
    0 ≤ (hourOf t).fdiv 4 ∧ (hourOf t).fdiv 4 < 6 := by
  unfold hourOf
  have h1 : 0 ≤ t.emod 86400 := Int.emod_nonneg _ (by norm_num)
  have h2 : t.emod 86400 < 86400 := Int.emod_lt_of_pos _ (by norm_num)
  rw [Int.fdiv_eq_ediv _ (by norm_num), Int.fdiv_eq_ediv _ (by norm_num)]
  omega

theorem getE_ok {α : Type} (l : List α) (n : ℕ) (d : α) (h : n < l.length) :
    getE l n = .ok (l.getD n d) := by
  rw [getE, dif_pos h, List.getD_eq_getElem l d h]
  rfl

theorem detect_temporal_patternE_ok (b : List Interaction) :
    detect_temporal_patternE b = .ok (detect_temporal_pattern b) := by
  simp only [detect_temporal_patternE, detect_temporal_pattern]
  by_cases h1 : b.length < 5
  · rw [if_pos h1, if_pos h1]
    rfl
  · rw [if_neg h1, if_neg h1]
    by_cases h2 : (batchTimestamps b).length < 5
    · rw [if_pos h2, if_pos h2]
      rfl
    · rw [if_neg h2, if_neg h2]
      have htne : batchTimestamps b ≠ [] := by
        intro h0
        rw [h0] at h2
        simp at h2
      have hdne : (batchTimestamps b).map weekdayOf ≠ [] := by
        intro h0
        exact htne (List.map_eq_nil_iff.mp h0)
      have hbne : (batchTimestamps b).map (fun t => (hourOf t).fdiv 4) ≠ [] := by
        intro h0
        exact htne (List.map_eq_nil_iff.mp h0)
      have hdaylt : (mostCommon 0 ((batchTimestamps b).map weekdayOf)).toNat
          < dayNames.length := by
        obtain ⟨t, -, ht⟩ := List.mem_map.mp (mostCommon_mem 0 hdne)
        have hb := weekdayOf_bounds t
        rw [ht] at hb
        have : dayNames.length = 7 := rfl
        omega
      have hblocklt : (mostCommon 0 ((batchTimestamps b).map
          (fun t => (hourOf t).fdiv 4))).toNat < blockRanges.length := by
        obtain ⟨t, -, ht⟩ := List.mem_map.mp (mostCommon_mem 0 hbne)
        have hb := hourBlock_bounds t
        rw [ht] at hb
        have : blockRanges.length = 6 := rfl
        omega
      simp only [mostCommonE_ok 0 hdne, mostCommonE_ok 0 hbne, exceptBind_ok]
      split_ifs
      · simp only [getE_ok dayNames _ "" hdaylt, exceptBind_ok]
        rfl
      · simp only [getE_ok blockRanges _ "" hblocklt, exceptBind_ok]
        rfl
      · rfl

theorem richnessScore_of_empty {b : List Interaction} (h : contentLengths b = []) :
    richnessScore b = 1/2 := by
  rw [richnessScore, if_pos h]

theorem richnessScore_of_ne_empty {b : List Interaction} (h : contentLengths b ≠ []) :
    richnessScore b = min 1 (mean (contentLengths b) / 200) := by
  rw [richnessScore, if_neg h]

theorem calculate_engagement_scoreE_ok (now : ℤ) (b : List Interaction) :
    calculate_engagement_scoreE now b = .ok (calculate_engagement_score now b) := by
  simp only [calculate_engagement_scoreE, calculate_engagement_score]
  by_cases hb : b = []
  · rw [if_pos hb, if_pos hb]
    rfl
  · rw [if_neg hb, if_neg hb]
    by_cases hts : batchTimestamps b = []
    · have hr : recencyScore now b = 0 := by
        rw [recencyScore, hts]
        rfl
      rw [if_pos hts]
      simp only [exceptPure_bind]
      by_cases hcl : contentLengths b = []
      · rw [if_pos hcl]
        simp only [exceptPure_bind, richnessScore_of_empty hcl, hr]
        rfl
      · rw [if_neg hcl]
        simp only [meanE, if_neg hcl, exceptBind_ok, exceptPure_bind,
          richnessScore_of_ne_empty hcl, hr]
        rfl
    · obtain ⟨m, hm⟩ : ∃ m, (batchTimestamps b).max? = some m := by
        cases h : (batchTimestamps b).max? with
        | none => exact absurd (List.max?_eq_none_iff.mp h) hts
        | some m => exact ⟨m, rfl⟩
      have hr : recencyScore now b
          = max 0 (1 - (((now - m).fdiv 86400 : ℤ) : ℚ) / 30) := by
        rw [recencyScore, hm]
      rw [if_neg hts]
      simp only [maxE, hm, exceptBind_ok, exceptPure_bind]
      by_cases hcl : contentLengths b = []
      · rw [if_pos hcl]
        simp only [exceptPure_bind, richnessScore_of_empty hcl, hr]
        rfl
      · rw [if_neg hcl]
        simp only [meanE, if_neg hcl, exceptBind_ok, exceptPure_bind,
          richnessScore_of_ne_empty hcl, hr]
        rfl

/-- C8: on every well-formed batch (all timestamps already parsed, optional
fields possibly absent), none of the four detectors can fail: each checked
detector — in which every partial primitive (`mean` of empty data, `stdev` of
fewer than two points, `most_common` of an empty counter, `max` of an empty
sequence, list indexing) returns an error instead of a value — returns `.ok`
of the plain detector's result. -/
theorem detectors_never_raise (sqrtFn : ℚ → ℚ) (now : ℤ) (b : List Interaction) :
    calculate_channel_frequencyE sqrtFn b = .ok (calculate_channel_frequency sqrtFn b) ∧
    analyze_sentiment_trendE b = .ok (analyze_sentiment_trend b) ∧
    detect_temporal_patternE b = .ok (detect_temporal_pattern b) ∧
    calculate_engagement_scoreE now b = .ok (calculate_engagement_score now b) :=
  ⟨calculate_channel_frequencyE_ok sqrtFn b, analyze_sentiment_trendE_ok b,
   detect_temporal_patternE_ok b, calculate_engagement_scoreE_ok now b⟩

end CustomerInsights
